import Mathlib

/-!
Verification of the knowledge-retrieval-and-grounding engine and the chat
frontend of the voice-clone-site repository.

The repository checkout contains the React frontend (the chat page with its
step wizard, document upload loop, message sending, voice-clone truncation)
and the legacy page script (base64 decoding).  The Python backend that
implements the Embedder, VectorStore, Retriever, ConversationStore and
orchestrator is consumed by the frontend through the HTTP API but is not
part of the checkout; those components are modelled from the specification
(marked "Modelled from the spec" below).  Frontend definitions are
translated from the page source.
-/

namespace VoiceClone

/-! ## Backend model (modelled from the spec; the Python backend is not in
the checkout) -/

/-- Modelled from the spec: failure cases of the Embedder (spec section
4.1); the embedding backend is missing from the checkout. -/
inductive EmbeddingError where
  | emptyText
  | backendUnavailable
  deriving DecidableEq

/-- Modelled from the spec: a stored document of the VectorStore (spec
section 3); the ChromaDB-backed store is missing from the checkout.
Embeddings are rational vectors; the metadata mapping is omitted because no
claim mentions its content. -/
structure StoredDoc where
  id : String
  embedding : List ℚ
  text : String
  deriving DecidableEq

/-- Dot product of two rational vectors. -/
def dotQ (v w : List ℚ) : ℚ := (List.zipWith (fun a b => a * b) v w).sum

/-- Squared Euclidean norm of a rational vector. -/
def normSq (v : List ℚ) : ℚ := dotQ v v

/-- Modelled from the spec: the similarity score of VectorStore.query (spec
section 4.2), cosine similarity (dot product divided by the product of the
norms) represented by its image under the strictly monotone map
t ↦ t * |t|, which keeps scores rational and the ranking decidable:
simScore q v = cos(q,v) * |cos(q,v)| = dot * |dot| / (normSq q * normSq v).
The theorem for claim C6 proves this encoding is order-faithful to the real
cosine. -/
def simScore (q v : List ℚ) : ℚ :=
  dotQ q v * |dotQ q v| / (normSq q * normSq v)

/-- Modelled from the spec: a RetrievalResult (spec section 3) tagged with
the insertion index of the document, used by the store for stable
tie-breaking. -/
structure Scored where
  idx : Nat
  documentId : String
  score : ℚ
  text : String
  deriving DecidableEq

/-- Ranking order on retrieval results: higher score first, ties broken by
insertion index. -/
def rankLE (a b : Scored) : Prop :=
  b.score < a.score ∨ (a.score = b.score ∧ a.idx ≤ b.idx)

instance : DecidableRel rankLE := fun a b => by
  unfold rankLE; infer_instance

instance : IsTotal Scored rankLE := by
  constructor
  intro a b
  rcases lt_trichotomy a.score b.score with h | h | h
  · exact Or.inr (Or.inl h)
  · rcases Nat.le_total a.idx b.idx with hi | hi
    · exact Or.inl (Or.inr ⟨h, hi⟩)
    · exact Or.inr (Or.inr ⟨h.symm, hi⟩)
  · exact Or.inl (Or.inl h)

instance : IsTrans Scored rankLE := by
  constructor
  intro a b c hab hbc
  rcases hab with hab | ⟨hab, hab'⟩
  · rcases hbc with hbc | ⟨hbc, _⟩
    · exact Or.inl (lt_trans hbc hab)
    · exact Or.inl (hbc ▸ hab)
  · rcases hbc with hbc | ⟨hbc, hbc'⟩
    · exact Or.inl (hab ▸ hbc)
    · exact Or.inr ⟨hab.trans hbc, hab'.trans hbc'⟩

/-- Scores every stored document against a query embedding, tagging each
result with the insertion index of the document. -/
def scoredOf (q : List ℚ) (store : List StoredDoc) : List Scored :=
  store.enum.map (fun p => ⟨p.1, p.2.id, simScore q p.2.embedding, p.2.text⟩)

/-- Modelled from the spec: VectorStore.query (spec section 4.2): rank the
whole collection by similarity, highest first with ties broken by insertion
order, and return the first k. -/
def query (store : List StoredDoc) (q : List ℚ) (k : Nat) : List Scored :=
  (List.insertionSort rankLE (scoredOf q store)).take k

/-- Modelled from the spec: VectorStore.reset (spec section 4.2) clears the
entire collection. -/
def reset (_store : List StoredDoc) : List StoredDoc := []

/-- Modelled from the spec: the totalDocuments counter of the stats
interface (spec section 6). -/
def totalDocuments (store : List StoredDoc) : Nat := store.length

/-- Modelled from the spec: the Retriever (spec section 4.3) packages an
embedding function (which may fail, spec section 4.1) with the vector
store. -/
structure Retriever where
  emb : String → Except EmbeddingError (List ℚ)
  store : List StoredDoc

/-- Modelled from the spec: retrieve (spec section 4.3): embed the query
text, query the store for the top k candidates, then filter out every
candidate scoring below the threshold. -/
def retrieve (R : Retriever) (queryText : String) (k : Nat) (threshold : ℚ) :
    Except EmbeddingError (List Scored) :=
  match R.emb queryText with
  | .error e => .error e
  | .ok v => .ok ((query R.store v k).filter (fun r => decide (threshold ≤ r.score)))

/-- A chat participant role, shared by the backend conversation model and
the frontend message list. -/
inductive Role where
  | user
  | assistant
  deriving DecidableEq

/-- Modelled from the spec: a conversation turn (spec section 3); failed
marks the synthetic error turn of spec section 4.7.  The timestamp is
omitted (turn order is the list order). -/
structure OTurn where
  role : Role
  content : String
  failed : Bool
  deriving DecidableEq

/-- Modelled from the spec: the Generator failure taxonomy (spec section
4.6). -/
inductive GenError where
  | rateLimited
  | timeout
  | invalidRequest
  deriving DecidableEq

/-- Modelled from the spec: a successful Generator output (spec section
4.6). -/
structure GenOk where
  text : String
  tokensUsed : Nat
  deriving DecidableEq

/-- Modelled from the spec: failures the orchestrator can surface to its
caller: an embedding failure during retrieval or a generation failure. -/
inductive ChatFailure where
  | embed (e : EmbeddingError)
  | gen (e : GenError)
  deriving DecidableEq

/-- Modelled from the spec: the chat result of the orchestrator (spec section
4.7). -/
structure ChatResult where
  responseText : String
  sourcesUsed : Nat
  relevanceScores : List ℚ
  tokensUsed : Nat
  deriving DecidableEq

/-- Modelled from the spec: PromptAssembler.assemble (spec section 4.5)
without the budget policy, which no claim depends on: persona instructions,
then a grounding block present only when retrieval is non-empty, then the
history, then the current user message. -/
def assemble (personaPrompt : String) (retrieved : List Scored)
    (history : List OTurn) (message : String) : List String :=
  [personaPrompt]
    ++ (if retrieved.isEmpty then [] else retrieved.map (fun r => r.text))
    ++ history.map (fun t => t.content) ++ [message]

/-- Modelled from the spec: the orchestrator chatWithKnowledge (spec
section 4.7): append the turn of the user immediately; retrieve; assemble;
generate; on generation failure append a synthetic failed assistant turn
and surface the error without fabricating a response; on success append the
assistant turn and return the result with sourcesUsed and relevanceScores
computed from the retrieval.  The external Generator is abstracted by the
gen argument.  Returns the updated conversation and the surfaced outcome. -/
def chatWithKnowledge (conv : List OTurn) (message : String)
    (personaPrompt : String) (R : Retriever) (k : Nat) (threshold : ℚ)
    (gen : List String → Except GenError GenOk) :
    List OTurn × Except ChatFailure ChatResult :=
  let conv1 := conv ++ [⟨Role.user, message, false⟩]
  match retrieve R message k threshold with
  | .error e => (conv1, .error (.embed e))
  | .ok retrieved =>
    match gen (assemble personaPrompt retrieved conv1 message) with
    | .error e => (conv1 ++ [⟨Role.assistant, "", true⟩], .error (.gen e))
    | .ok g =>
      (conv1 ++ [⟨Role.assistant, g.text, false⟩],
        .ok ⟨g.text, retrieved.length, retrieved.map (fun r => r.score), g.tokensUsed⟩)

/-! ## Frontend model (translated from the chat page component in src).
Presentation-only data (element ids, timestamps, CSS, toast wording) is
omitted; JS strings are modelled as lists of characters. -/

/-- A chat message of the page (interface Message): role, content, the
sources_used count recorded from the backend response, and the synthesized
audio data url, if any. -/
structure Message where
  role : Role
  content : List Char
  sources : Option Nat
  audioUrl : Option (List Char)
  deriving DecidableEq

/-- The fields of the chat-with-knowledge API response that sendMessage
reads. -/
structure ChatResponse where
  text_response : List Char
  sources_used : Nat
  deriving DecidableEq

/-- A thrown API-call error as observed by the frontend catch blocks. -/
inductive ApiError where
  | failure
  deriving DecidableEq

/-- Translated from sendMessage: the truncation applied to the assistant
response before the voice-clone TTS call: responses longer than 500
characters are replaced by their first 497 characters followed by "...". -/
def truncatedResponse (s : List Char) : List Char :=
  if s.length > 500 then s.take 497 ++ ['.', '.', '.'] else s

/-- Translated from sendMessage in the chat page: return unchanged on blank
input or while a generation is in flight; append the user message first;
await the knowledge chat; when a voice clone exists, synthesize audio for
the truncated response; append the assistant message carrying the response
text and sources count; any thrown error lands in the catch block, which
shows the failure toast and appends nothing further.  The two awaited API
calls are abstracted by chat and tts; the returned Bool records whether the
failure toast was shown. -/
def sendMessage (messages : List Message) (inputMessage : List Char)
    (isGenerating : Bool) (voiceCloneGenerated : Bool)
    (chat : Except ApiError ChatResponse)
    (tts : List Char → Except ApiError (List Char)) :
    List Message × Bool :=
  if inputMessage.all Char.isWhitespace || isGenerating then (messages, false)
  else
    let userMessage : Message := ⟨Role.user, inputMessage, none, none⟩
    match chat with
    | .error _ => (messages ++ [userMessage], true)
    | .ok response =>
      if voiceCloneGenerated then
        match tts (truncatedResponse response.text_response) with
        | .error _ => (messages ++ [userMessage], true)
        | .ok audio =>
          (messages ++ [userMessage,
            ⟨Role.assistant, response.text_response, some response.sources_used,
              some audio⟩], false)
      else
        (messages ++ [userMessage,
          ⟨Role.assistant, response.text_response, some response.sources_used,
            none⟩], false)

/-- How a document row of the page (interface Document) was created: from a
file upload or from pasted text.  Both kinds issue one API call each in the
processing loop. -/
inductive DocPayload where
  | file
  | paste
  deriving DecidableEq

/-- A document row of the page (interface Document); the name, raw content
and size fields do not affect the control flow modelled here. -/
structure Document where
  id : String
  payload : DocPayload
  deriving DecidableEq

/-- Translated from the processDocuments for-loop: each document issues one
awaited API call (uploadTextFile for files, addKnowledge for pasted text)
inside a single try block, so the first failed call aborts the rest.
upload abstracts whether the API call of a document succeeds.  Returns the ids
of the documents successfully sent before any abort, and whether the whole
loop completed. -/
def processLoop (upload : Document → Bool) : List Document → List String × Bool
  | [] => ([], true)
  | d :: ds =>
    if upload d then
      let r := processLoop upload ds
      (d.id :: r.1, r.2)
    else ([], false)

/-- The outcome of processDocuments observable in the page state: which
documents were uploaded, whether documentsEmbedded was set, and whether a
failure toast was shown. -/
structure IngestOutcome where
  uploaded : List String
  documentsEmbedded : Bool
  errorToast : Bool
  deriving DecidableEq

/-- Translated from processDocuments in the chat page: an empty document
list is an early no-op with a destructive toast; otherwise the documents
are uploaded in order inside one try block; only when every upload succeeds
is documentsEmbedded set; any failure lands in the single catch block,
which shows one failure toast and leaves documentsEmbedded unset. -/
def processDocuments (documents : List Document) (upload : Document → Bool) :
    IngestOutcome :=
  if documents.isEmpty then ⟨[], false, true⟩
  else
    let r := processLoop upload documents
    ⟨r.1, r.2, !r.2⟩

/-- The wizard steps of the chat page (currentStep). -/
inductive Step where
  | upload
  | voice
  | persona
  | chat
  deriving DecidableEq, Fintype

/-- Projection of the page state to the fields read by the step guards:
the three setup flags, the persona-editing flag, and the current step. -/
structure WizardState where
  documentsEmbedded : Bool
  voiceCloneGenerated : Bool
  personaConfigured : Bool
  isEditingPersona : Bool
  currentStep : Step
  deriving DecidableEq, Fintype

/-- Translated from the chat page: whether the voice tab may be entered. -/
def canProceedToVoice (s : WizardState) : Bool := s.documentsEmbedded

/-- Translated from the chat page: whether the persona tab may be
entered. -/
def canProceedToPersona (s : WizardState) : Bool :=
  s.documentsEmbedded && s.voiceCloneGenerated

/-- Translated from the chat page: whether the chat tab may be entered. -/
def canProceedToChat (s : WizardState) : Bool :=
  s.documentsEmbedded && s.voiceCloneGenerated && s.personaConfigured

/-- User interactions of the chat page that can change the wizard fields.
selectTab is the Tabs onValueChange handler; the other events are the
buttons and callbacks of the page, each available only on the tab whose
content renders its control. -/
inductive WizardEvent where
  | selectTab (s : Step)
  | embedSuccess
  | continueWithoutDocuments
  | nextFromUpload
  | cloneSuccess
  | uploadNewVoice
  | backFromVoice
  | nextFromVoice
  | setUpTwin
  | editPersona
  | cancelEditing
  | backFromPersona
  | startChatting
  | clearKnowledge
  deriving DecidableEq, Fintype

/-- Translated from the chat page: the effect of each interaction on the
wizard fields.  The Tabs onValueChange handler rejects a selection whose
prerequisite flags are unset (showing a toast and leaving the step
unchanged); buttons rendered only on one tab, or rendered or enabled only
under a condition, are no-ops outside it.  embedSuccess is the success path
of processDocuments; cloneSuccess the success path of generateVoiceClone;
setUpTwin runs configurePersona and clears the editing flag; clearKnowledge
is the successful clearKnowledgeBase path. -/
def wizardStep (st : WizardState) (e : WizardEvent) : WizardState :=
  match e with
  | .selectTab s =>
    match s with
    | .upload => { st with currentStep := .upload }
    | .voice => if canProceedToVoice st then { st with currentStep := .voice } else st
    | .persona => if canProceedToPersona st then { st with currentStep := .persona } else st
    | .chat => if canProceedToChat st then { st with currentStep := .chat } else st
  | .embedSuccess =>
    if st.currentStep = .upload then { st with documentsEmbedded := true } else st
  | .continueWithoutDocuments =>
    if st.currentStep = .upload then
      { st with documentsEmbedded := true, currentStep := .voice }
    else st
  | .nextFromUpload =>
    if st.currentStep = .upload ∧ st.documentsEmbedded then
      { st with currentStep := .voice }
    else st
  | .cloneSuccess =>
    if st.currentStep = .voice then { st with voiceCloneGenerated := true } else st
  | .uploadNewVoice =>
    if st.currentStep = .voice then { st with voiceCloneGenerated := false } else st
  | .backFromVoice =>
    if st.currentStep = .voice then { st with currentStep := .upload } else st
  | .nextFromVoice =>
    if st.currentStep = .voice ∧ st.voiceCloneGenerated then
      { st with currentStep := .persona }
    else st
  | .setUpTwin =>
    if st.currentStep = .persona then
      { st with personaConfigured := true, isEditingPersona := false,
                currentStep := .chat }
    else st
  | .editPersona =>
    if st.currentStep = .persona then { st with isEditingPersona := true } else st
  | .cancelEditing =>
    if st.currentStep = .persona then { st with isEditingPersona := false } else st
  | .backFromPersona =>
    if st.currentStep = .persona then { st with currentStep := .voice } else st
  | .startChatting =>
    if st.currentStep = .persona ∧ st.personaConfigured ∧ ¬st.isEditingPersona then
      { st with currentStep := .chat }
    else st
  | .clearKnowledge =>
    { st with documentsEmbedded := false, voiceCloneGenerated := false,
              personaConfigured := false, currentStep := .upload }

/-- The initial page state: all flags unset, on the upload step. -/
def initialWizard : WizardState := ⟨false, false, false, false, .upload⟩

/-- The wizard state after a sequence of user interactions from the initial
state. -/
def runWizard (events : List WizardEvent) : WizardState :=
  events.foldl wizardStep initialWizard

/-- The reachability invariant of the wizard: steps past upload require the
documents flag, the persona and chat steps require the voice flag, and the
chat step requires the persona flag. -/
def wizardInv (s : WizardState) : Bool :=
  (decide (s.currentStep = Step.upload) || s.documentsEmbedded)
    && (!(decide (s.currentStep = Step.persona) || decide (s.currentStep = Step.chat))
        || s.voiceCloneGenerated)
    && (!(decide (s.currentStep = Step.chat)) || s.personaConfigured)

/-- The full page state touched by clearKnowledgeBase: the document rows,
the chat messages, the cached knowledge stats, and the wizard fields. -/
structure AppState where
  documents : List Document
  messages : List Message
  knowledgeStats : Option Nat
  documentsEmbedded : Bool
  voiceCloneGenerated : Bool
  personaConfigured : Bool
  currentStep : Step
  deriving DecidableEq

/-- Translated from clearKnowledgeBase in the chat page, together with the
backend reset it awaits (TTSApi.resetKnowledge; the backend endpoint is
modelled from the spec since it is missing from the checkout): without the
confirm dialog nothing happens; if the reset call throws, only an error
toast is shown; otherwise the collection is cleared and the local state is
returned to the initial upload position. -/
def clearKnowledgeBase (store : List StoredDoc) (s : AppState)
    (confirmed : Bool) (resetSucceeds : Bool) : List StoredDoc × AppState :=
  if !confirmed then (store, s)
  else if !resetSucceeds then (store, s)
  else
    (reset store,
      { s with documents := [], messages := [], knowledgeStats := none,
               documentsEmbedded := false, voiceCloneGenerated := false,
               personaConfigured := false, currentStep := Step.upload })

/-! ## Base64 model (translated from the legacy page script). -/

/-- The base64 alphabet in table order. -/
def b64Chars : List Char :=
  ['A', 'B', 'C', 'D', 'E', 'F', 'G', 'H', 'I', 'J', 'K', 'L', 'M',
   'N', 'O', 'P', 'Q', 'R', 'S', 'T', 'U', 'V', 'W', 'X', 'Y', 'Z',
   'a', 'b', 'c', 'd', 'e', 'f', 'g', 'h', 'i', 'j', 'k', 'l', 'm',
   'n', 'o', 'p', 'q', 'r', 's', 't', 'u', 'v', 'w', 'x', 'y', 'z',
   '0', '1', '2', '3', '4', '5', '6', '7', '8', '9', '+', '/']

/-- The alphabet character of a sextet value. -/
def b64Char (n : Nat) : Char := b64Chars.getD n 'A'

/-- The sextet value of an alphabet character. -/
def b64Val (c : Char) : Nat := b64Chars.indexOf c

/-- Standard base64 encoding of a byte sequence (what the browser builtin btoa
performs on a byte string); used to state the decode round trip. -/
def bytesToBase64 : List Nat → List Char
  | a :: b :: c :: rest =>
    b64Char (a / 4) :: b64Char (a % 4 * 16 + b / 16) ::
      b64Char (b % 16 * 4 + c / 64) :: b64Char (c % 64) :: bytesToBase64 rest
  | [a, b] => [b64Char (a / 4), b64Char (a % 4 * 16 + b / 16), b64Char (b % 16 * 4), '=']
  | [a] => [b64Char (a / 4), b64Char (a % 4 * 16), '=', '=']
  | [] => []

/-- Model of the browser builtin atob used by base64ToBlob: decode a base64
string into its sequence of byte characters (standard algorithm, padding
at the end). -/
def atob : List Char → List Char
  | c0 :: c1 :: c2 :: c3 :: rest =>
    if c2 = '=' then [Char.ofNat (b64Val c0 * 4 + b64Val c1 / 16)]
    else if c3 = '=' then
      [Char.ofNat (b64Val c0 * 4 + b64Val c1 / 16),
       Char.ofNat (b64Val c1 % 16 * 16 + b64Val c2 / 4)]
    else
      Char.ofNat (b64Val c0 * 4 + b64Val c1 / 16) ::
        Char.ofNat (b64Val c1 % 16 * 16 + b64Val c2 / 4) ::
        Char.ofNat (b64Val c2 % 4 * 64 + b64Val c3) :: atob rest
  | _ => []

/-- Translated from base64ToBlob in the legacy page script: decode the
base64 input with atob, then build the byte array whose i-th entry is the
character code of the i-th character of the decoded string.  The mimeType
argument only tags the resulting Blob and does not affect the bytes, so it
is omitted. -/
def base64ToBlob (base64 : List Char) : List Nat :=
  (atob base64).map Char.toNat

/-! ## Claim theorems -/

/-- C1: for every chat turn the message of the user is appended to the
conversation history before generation is attempted (every outcome of
sendMessage extends the history with the user turn first); if the awaited
generation call fails, the history retains the turn of the user, no fabricated
assistant message is appended, and the error is surfaced (the failure toast
is shown); likewise when the voice synthesis call after a successful
generation fails. -/
theorem sendMessage_failure_keeps_user_turn (messages : List Message)
    (input : List Char) (voiceClone : Bool)
    (tts : List Char → Except ApiError (List Char))
    (hblank : input.all Char.isWhitespace = false) :
    (∀ e : ApiError,
      sendMessage messages input false voiceClone (.error e) tts =
        (messages ++ [⟨Role.user, input, none, none⟩], true))
  ∧ (∀ chat : Except ApiError ChatResponse, ∃ rest : List Message,
      (sendMessage messages input false voiceClone chat tts).1 =
        messages ++ ⟨Role.user, input, none, none⟩ :: rest)
  ∧ (∀ (resp : ChatResponse) (e : ApiError),
      tts (truncatedResponse resp.text_response) = .error e →
      sendMessage messages input false true (.ok resp) tts =
        (messages ++ [⟨Role.user, input, none, none⟩], true)) := by
  refine ⟨fun e => by simp [sendMessage, hblank], fun chat => ?_, fun resp e he => by
    simp [sendMessage, hblank, he]⟩
  match chat with
  | .error e => exact ⟨[], by simp [sendMessage, hblank]⟩
  | .ok resp =>
    by_cases hv : voiceClone = true
    · match hts : tts (truncatedResponse resp.text_response) with
      | .error e => exact ⟨[], by simp [sendMessage, hblank, hv, hts]⟩
      | .ok audio =>
        exact ⟨[⟨Role.assistant, resp.text_response, some resp.sources_used, some audio⟩],
          by simp [sendMessage, hblank, hv, hts]⟩
    · exact ⟨[⟨Role.assistant, resp.text_response, some resp.sources_used, none⟩],
        by simp [sendMessage, hblank, Bool.eq_false_iff.mpr hv]⟩

/-- C1 witness: concrete failing and succeeding calls on the input "hi". -/
theorem sendMessage_failure_keeps_user_turn_witness :
    (['h', 'i'].all Char.isWhitespace = false)
  ∧ sendMessage [] ['h', 'i'] false false (.error ApiError.failure)
      (fun _ => .error ApiError.failure) =
      ([⟨Role.user, ['h', 'i'], none, none⟩], true)
  ∧ sendMessage [] ['h', 'i'] false true (.ok ⟨['o', 'k'], 2⟩)
      (fun _ => .error ApiError.failure) =
      ([⟨Role.user, ['h', 'i'], none, none⟩], true) := by
  refine ⟨by decide, ?_, ?_⟩
  · have h := (sendMessage_failure_keeps_user_turn [] ['h', 'i'] false
      (fun _ => .error ApiError.failure) (by decide)).1 ApiError.failure
    simpa using h
  · have h := (sendMessage_failure_keeps_user_turn [] ['h', 'i'] true
      (fun _ => .error ApiError.failure) (by decide)).2.2 ⟨['o', 'k'], 2⟩
      ApiError.failure rfl
    simpa using h

/-- C2 counterexample: with two pasted documents where the first upload
fails and the second would succeed, processDocuments uploads nothing at
all: the processing of the second document is blocked by the failure of the
first, and the outcome reports no succeeded id rather than a
per-document aggregate. -/
theorem processDocuments_blocks_second_document :
    ((fun d => d.id == "d2") (⟨"d2", DocPayload.paste⟩ : Document) = true)
  ∧ (processDocuments [⟨"d1", DocPayload.paste⟩, ⟨"d2", DocPayload.paste⟩]
        (fun d => d.id == "d2")).uploaded = []
  ∧ (processDocuments [⟨"d1", DocPayload.paste⟩, ⟨"d2", DocPayload.paste⟩]
        (fun d => d.id == "d2")).documentsEmbedded = false := by
  refine ⟨rfl, rfl, rfl⟩

/-- C2 amended: processDocuments uploads documents sequentially inside a
single try block: the ingested documents are exactly the longest prefix on
which the upload succeeds (so the first failure aborts the loop and later
documents are skipped), documentsEmbedded is set only when every upload
succeeds, and a failure shows one toast in place of a per-document
aggregate of succeeded and failed entries. -/
theorem processDocuments_sequential_abort (documents : List Document)
    (upload : Document → Bool) (h : documents ≠ []) :
    processDocuments documents upload =
      ⟨(documents.takeWhile upload).map (fun d => d.id),
        documents.all upload, !documents.all upload⟩ := by
  have key : ∀ ds : List Document,
      processLoop upload ds =
        ((ds.takeWhile upload).map (fun d => d.id), ds.all upload) := by
    intro ds
    induction ds with
    | nil => rfl
    | cons d ds ih =>
      by_cases hd : upload d = true
      · simp [processLoop, hd, ih, List.takeWhile_cons, List.all_cons]
      · simp [processLoop, hd, List.takeWhile_cons, List.all_cons,
          Bool.eq_false_iff.mpr hd]
  cases documents with
  | nil => exact absurd rfl h
  | cons d ds => simp [processDocuments, key]

/-- C2 amended witness: a single successfully uploading document. -/
theorem processDocuments_sequential_abort_witness :
    processDocuments [(⟨"d1", DocPayload.paste⟩ : Document)] (fun _ => true) =
      ⟨["d1"], true, false⟩ := by
  have h := processDocuments_sequential_abort
    [(⟨"d1", DocPayload.paste⟩ : Document)] (fun _ => true) (by simp)
  simpa using h

/-- C7: after reset the collection is empty: any subsequent query returns
the empty list and the totalDocuments counter is 0; reset is irreversible,
its result being independent of the prior collection, so the cleared
documents cannot be recovered from it; and the confirmed, successful
frontend clearKnowledgeBase path empties the backend collection and returns
the local page state to the initial upload position. -/
theorem reset_clears_collection :
    (∀ (store : List StoredDoc) (v : List ℚ) (k : Nat), query (reset store) v k = [])
  ∧ (∀ store : List StoredDoc, totalDocuments (reset store) = 0)
  ∧ (∀ s1 s2 : List StoredDoc, reset s1 = reset s2)
  ∧ (∀ (store : List StoredDoc) (s : AppState),
      clearKnowledgeBase store s true true =
        ([], { s with documents := [], messages := [], knowledgeStats := none,
                      documentsEmbedded := false, voiceCloneGenerated := false,
                      personaConfigured := false, currentStep := Step.upload })) :=
  ⟨fun _ _ k => by simp [query, reset, scoredOf], fun _ => rfl, fun _ _ => rfl,
    fun _ _ => rfl⟩

/-- C8: the text passed to the voice-clone TTS call is the truncated
response: always at most 500 characters, equal to the response text when
that text has at most 500 characters, and otherwise exactly its first 497
characters followed by "..."; sendMessage passes exactly this truncation to
the TTS call and stores the synthesized audio on the assistant message. -/
theorem truncatedResponse_bounded (s : List Char) :
    (truncatedResponse s).length ≤ 500
  ∧ (s.length ≤ 500 → truncatedResponse s = s)
  ∧ (500 < s.length → truncatedResponse s = s.take 497 ++ ['.', '.', '.'])
  ∧ (∀ (messages : List Message) (input : List Char) (resp : ChatResponse)
      (tts : List Char → Except ApiError (List Char)) (audio : List Char),
      input.all Char.isWhitespace = false →
      tts (truncatedResponse resp.text_response) = .ok audio →
      sendMessage messages input false true (.ok resp) tts =
        (messages ++ [⟨Role.user, input, none, none⟩,
          ⟨Role.assistant, resp.text_response, some resp.sources_used, some audio⟩],
          false)) := by
  refine ⟨?_, fun hle => ?_, fun hgt => ?_, fun messages input resp tts audio h1 h2 => by
    simp [sendMessage, h1, h2]⟩
  · unfold truncatedResponse
    split
    · next hgt => simp [List.length_take]
    · next hle => omega
  · unfold truncatedResponse
    rw [if_neg (by omega)]
  · unfold truncatedResponse
    rw [if_pos (by omega)]

/-- C8 witness: a short response is passed unchanged; a 501-character
response is cut to 500 characters; a concrete TTS call receives the
truncation. -/
theorem truncatedResponse_bounded_witness :
    truncatedResponse ['h', 'i'] = ['h', 'i']
  ∧ (truncatedResponse (List.replicate 501 'a')).length ≤ 500
  ∧ truncatedResponse (List.replicate 501 'a') =
      (List.replicate 501 'a').take 497 ++ ['.', '.', '.']
  ∧ sendMessage [] ['h', 'i'] false true (.ok ⟨['o', 'k'], 0⟩) (fun t => .ok t) =
      ([⟨Role.user, ['h', 'i'], none, none⟩,
        ⟨Role.assistant, ['o', 'k'], some 0, some (truncatedResponse ['o', 'k'])⟩],
        false) := by
  refine ⟨(truncatedResponse_bounded ['h', 'i']).2.1 (by decide),
    (truncatedResponse_bounded (List.replicate 501 'a')).1,
    (truncatedResponse_bounded (List.replicate 501 'a')).2.2.1
      (by rw [List.length_replicate]; omega),
    ?_⟩
  have h := (truncatedResponse_bounded ['o', 'k']).2.2.2 [] ['h', 'i']
    ⟨['o', 'k'], 0⟩ (fun t => .ok t) (truncatedResponse ['o', 'k'])
    (by decide) rfl
  simpa using h

/-- Preservation of the wizard reachability invariant by every user
interaction, checked over the finite state and event spaces. -/
theorem wizardInv_step : ∀ (s : WizardState) (e : WizardEvent),
    wizardInv s = true → wizardInv (wizardStep s e) = true := by decide

/-- C9: in the step wizard the chat step is reachable only with all three
setup flags set: after any sequence of user interactions from the initial
state, being on the chat step implies documentsEmbedded,
voiceCloneGenerated and personaConfigured all hold; and the tab handler
rejects (leaves the state unchanged on) any selection whose prerequisite
flags are unset. -/
theorem chat_step_requires_setup :
    (∀ events : List WizardEvent,
      (runWizard events).currentStep = Step.chat →
        (runWizard events).documentsEmbedded = true ∧
        (runWizard events).voiceCloneGenerated = true ∧
        (runWizard events).personaConfigured = true)
  ∧ (∀ st : WizardState,
      (canProceedToVoice st = false → wizardStep st (.selectTab .voice) = st) ∧
      (canProceedToPersona st = false → wizardStep st (.selectTab .persona) = st) ∧
      (canProceedToChat st = false → wizardStep st (.selectTab .chat) = st)) := by
  constructor
  · have hrun : ∀ (l : List WizardEvent) (s : WizardState), wizardInv s = true →
        wizardInv (l.foldl wizardStep s) = true := by
      intro l
      induction l with
      | nil => intro s hs; exact hs
      | cons e l ih => intro s hs; exact ih _ (wizardInv_step s e hs)
    intro events hchat
    have h := hrun events initialWizard (by decide)
    rw [show events.foldl wizardStep initialWizard = runWizard events from rfl] at h
    simp only [wizardInv, hchat, Bool.and_eq_true, Bool.or_eq_true, decide_eq_true_eq,
      Bool.not_eq_true'] at h
    exact ⟨by simpa using h.1.1, by simpa using h.1.2, by simpa using h.2⟩
  · decide

/-- C9 witness: a run that reaches the chat step has all flags set, and the
chat-tab selection on the initial state is rejected. -/
theorem chat_step_requires_setup_witness :
    (runWizard [WizardEvent.continueWithoutDocuments, WizardEvent.cloneSuccess,
        WizardEvent.nextFromVoice, WizardEvent.setUpTwin]).currentStep = Step.chat
  ∧ ((runWizard [WizardEvent.continueWithoutDocuments, WizardEvent.cloneSuccess,
        WizardEvent.nextFromVoice, WizardEvent.setUpTwin]).documentsEmbedded = true ∧
      (runWizard [WizardEvent.continueWithoutDocuments, WizardEvent.cloneSuccess,
        WizardEvent.nextFromVoice, WizardEvent.setUpTwin]).voiceCloneGenerated = true ∧
      (runWizard [WizardEvent.continueWithoutDocuments, WizardEvent.cloneSuccess,
        WizardEvent.nextFromVoice, WizardEvent.setUpTwin]).personaConfigured = true)
  ∧ (canProceedToChat initialWizard = false ∧
      wizardStep initialWizard (.selectTab .chat) = initialWizard) :=
  ⟨by decide,
    chat_step_requires_setup.1 [WizardEvent.continueWithoutDocuments,
      WizardEvent.cloneSuccess, WizardEvent.nextFromVoice, WizardEvent.setUpTwin]
      (by decide),
    by decide, (chat_step_requires_setup.2 initialWizard).2.2 (by decide)⟩

/-- C4: retrieve first embeds the query text (an embedding failure is
surfaced before any store access), then queries the store for the top k
candidates, and only then removes candidates scoring below the threshold
(query-then-filter, never filter-then-backfill); the result can therefore
have fewer than k items, including zero, and an empty result — in
particular on an empty collection — is returned as a success, not an
error. -/
theorem retrieve_query_then_filter (R : Retriever) (queryText : String)
    (k : Nat) (threshold : ℚ) :
    (∀ v, R.emb queryText = .ok v →
      retrieve R queryText k threshold =
        .ok ((query R.store v k).filter (fun r => decide (threshold ≤ r.score))))
  ∧ (∀ l, retrieve R queryText k threshold = .ok l → l.length ≤ k)
  ∧ (∀ v, R.emb queryText = .ok v → R.store = [] →
      retrieve R queryText k threshold = .ok [])
  ∧ (∀ e, R.emb queryText = .error e →
      retrieve R queryText k threshold = .error e) := by
  refine ⟨fun v hv => by simp [retrieve, hv], fun l hl => ?_,
    fun v hv hs => by simp [retrieve, hv, hs, query, scoredOf],
    fun e he => by simp [retrieve, he]⟩
  cases hemb : R.emb queryText with
  | error e => simp [retrieve, hemb] at hl
  | ok v =>
    simp [retrieve, hemb] at hl
    calc l.length = ((query R.store v k).filter
          (fun r => decide (threshold ≤ r.score))).length := by rw [hl]
      _ ≤ (query R.store v k).length := List.length_filter_le _ _
      _ ≤ k := List.length_take_le k _

/-- C4 witness: a one-document store where the single candidate scores
below the threshold, so retrieval succeeds with zero results; and a failing
embedder whose error is surfaced. -/
theorem retrieve_query_then_filter_witness :
    ((⟨fun _ => .ok [1], [⟨"a", [1], "ta"⟩]⟩ : Retriever).emb ("q") = .ok [1])
  ∧ retrieve ⟨fun _ => .ok [1], [⟨"a", [1], "ta"⟩]⟩ ("q") 5 2 = .ok []
  ∧ ((⟨fun _ => .error EmbeddingError.emptyText, []⟩ : Retriever).emb ("q") =
      .error EmbeddingError.emptyText)
  ∧ retrieve ⟨fun _ => .error EmbeddingError.emptyText, []⟩ ("q") 5 2 =
      .error EmbeddingError.emptyText := by
  refine ⟨rfl, ?_, rfl,
    (retrieve_query_then_filter ⟨fun _ => .error EmbeddingError.emptyText, []⟩
      ("q") 5 2).2.2.2 EmbeddingError.emptyText rfl⟩
  have h := (retrieve_query_then_filter ⟨fun _ => .ok [1], [⟨"a", [1], "ta"⟩]⟩
    ("q") 5 2).1 [1] rfl
  rw [h]
  exact congrArg Except.ok (by norm_num [query, scoredOf, simScore, dotQ, normSq,
    List.insertionSort, List.orderedInsert, rankLE, List.enum, List.enumFrom,
    List.filter])

/-- C5: every retrieval result list returned to a caller is sorted by score
in non-increasing order with ties broken by original insertion order, every
returned score is at least the threshold, and the list length is at most
the requested k. -/
theorem retrieve_result_invariants (R : Retriever) (queryText : String)
    (k : Nat) (threshold : ℚ) (l : List Scored)
    (h : retrieve R queryText k threshold = .ok l) :
    l.Pairwise (fun a b => b.score ≤ a.score ∧ (a.score = b.score → a.idx ≤ b.idx))
  ∧ (∀ r ∈ l, threshold ≤ r.score)
  ∧ l.length ≤ k := by
  cases hemb : R.emb queryText with
  | error e => simp [retrieve, hemb] at h
  | ok v =>
    simp [retrieve, hemb] at h
    subst h
    refine ⟨?_, ?_, ?_⟩
    · have hs : (List.insertionSort rankLE (scoredOf v R.store)).Pairwise rankLE :=
        List.sorted_insertionSort rankLE (scoredOf v R.store)
      have ht : (query R.store v k).Pairwise rankLE :=
        hs.sublist (List.take_sublist k _)
      have hf : ((query R.store v k).filter
          (fun r => decide (threshold ≤ r.score))).Pairwise rankLE :=
        ht.sublist (List.filter_sublist _)
      refine hf.imp ?_
      intro a b hab
      rcases hab with hlt | ⟨heq, hidx⟩
      · exact ⟨le_of_lt hlt, fun he => absurd (he ▸ hlt) (lt_irrefl _)⟩
      · exact ⟨le_of_eq heq.symm, fun _ => hidx⟩
    · intro r hr
      have := List.of_mem_filter hr
      exact of_decide_eq_true this
    · calc ((query R.store v k).filter
            (fun r => decide (threshold ≤ r.score))).length
          ≤ (query R.store v k).length := List.length_filter_le _ _
        _ ≤ k := List.length_take_le k _

/-- C5 witness: a two-document store with distinct scores; both results
pass the threshold and come back highest score first. -/
theorem retrieve_result_invariants_witness :
    retrieve ⟨fun _ => .ok [1, 0], [⟨"a", [1, 0], "ta"⟩, ⟨"b", [0, 1], "tb"⟩]⟩
        ("q") 2 0 = .ok [⟨0, "a", 1, "ta"⟩, ⟨1, "b", 0, "tb"⟩]
  ∧ (∀ r ∈ [(⟨0, "a", 1, "ta"⟩ : Scored), ⟨1, "b", 0, "tb"⟩], (0 : ℚ) ≤ r.score)
  ∧ ([(⟨0, "a", 1, "ta"⟩ : Scored), ⟨1, "b", 0, "tb"⟩].length ≤ 2) := by
  have hret : retrieve ⟨fun _ => .ok [1, 0],
      [⟨"a", [1, 0], "ta"⟩, ⟨"b", [0, 1], "tb"⟩]⟩ ("q") 2 0 =
      .ok [⟨0, "a", 1, "ta"⟩, ⟨1, "b", 0, "tb"⟩] := by
    simp [retrieve, query, scoredOf, simScore, dotQ, normSq, List.insertionSort,
      List.orderedInsert, rankLE, List.enum, List.enumFrom, List.filter]
  have h := retrieve_result_invariants _ ("q") 2 0 _ hret
  exact ⟨hret, h.2.1, h.2.2⟩

/-- C3: a successful chat appends the user and assistant turns and returns
a result whose sourcesUsed equals the number of retrieved results and whose
relevanceScores are exactly their scores; with an empty collection the
retrieval is empty yet the call still returns a successful result, whose
sourcesUsed is then 0 and visible to the caller; and the frontend records
the sources count on the assistant message even when it is 0, so a degraded
ungrounded answer can be disclosed. -/
theorem chatWithKnowledge_sources_reported (conv : List OTurn)
    (message personaPrompt : String) (R : Retriever) (k : Nat) (threshold : ℚ)
    (gen : List String → Except GenError GenOk) (l : List Scored) (g : GenOk)
    (hret : retrieve R message k threshold = .ok l)
    (hgen : gen (assemble personaPrompt l (conv ++ [⟨Role.user, message, false⟩])
      message) = .ok g) :
    chatWithKnowledge conv message personaPrompt R k threshold gen =
      (conv ++ [⟨Role.user, message, false⟩, ⟨Role.assistant, g.text, false⟩],
        .ok ⟨g.text, l.length, l.map (fun r => r.score), g.tokensUsed⟩)
  ∧ (R.store = [] → l = [])
  ∧ (∀ (msgs : List Message) (input : List Char) (resp : ChatResponse)
      (tts : List Char → Except ApiError (List Char)),
      input.all Char.isWhitespace = false →
      sendMessage msgs input false false (.ok resp) tts =
        (msgs ++ [⟨Role.user, input, none, none⟩,
          ⟨Role.assistant, resp.text_response, some resp.sources_used, none⟩],
          false)) := by
  refine ⟨by simp [chatWithKnowledge, hret, hgen], fun hs => ?_,
    fun msgs input resp tts hb => by simp [sendMessage, hb]⟩
  cases hemb : R.emb message with
  | error e => simp [retrieve, hemb] at hret
  | ok v =>
    simp [retrieve, hemb, hs, query, scoredOf] at hret
    exact hret

/-- C3 witness: an empty collection still produces a successful result with
sourcesUsed 0 and no relevance scores, and the frontend stores a sources
count of 0 on the assistant message. -/
theorem chatWithKnowledge_sources_reported_witness :
    chatWithKnowledge [] ("hello") ("persona") ⟨fun _ => .ok [1], []⟩ 5 (7 / 10)
        (fun _ => .ok ⟨"resp", 42⟩) =
      ([⟨Role.user, "hello", false⟩, ⟨Role.assistant, "resp", false⟩],
        .ok ⟨"resp", 0, [], 42⟩)
  ∧ sendMessage [] ['h', 'i'] false false (.ok ⟨['o', 'k'], 0⟩) (fun t => .ok t) =
      ([⟨Role.user, ['h', 'i'], none, none⟩,
        ⟨Role.assistant, ['o', 'k'], some 0, none⟩], false) := by
  have h := chatWithKnowledge_sources_reported [] ("hello") ("persona")
    ⟨fun _ => .ok [1], []⟩ 5 (7 / 10) (fun _ => .ok ⟨"resp", 42⟩) [] ⟨"resp", 42⟩
    rfl rfl
  have h2 := h.2.2 [] ['h', 'i'] ⟨['o', 'k'], 0⟩ (fun t => .ok t) (by decide)
  exact ⟨by simpa using h.1, by simpa using h2⟩

/-- The map t ↦ t * |t| on the reals is strictly monotone; it is the order
embedding under which the rational scores of the store represent cosine
similarity. -/
theorem strictMono_mul_abs : StrictMono (fun t : ℝ => t * |t|) := by
  intro a b hab
  show a * |a| < b * |b|
  rcases le_or_lt 0 a with ha | ha
  · have hb : 0 ≤ b := le_trans ha hab.le
    rw [abs_of_nonneg ha, abs_of_nonneg hb]
    exact mul_self_lt_mul_self ha hab
  · rcases le_or_lt 0 b with hb | hb
    · have h1 : a * |a| < 0 := mul_neg_of_neg_of_pos ha (abs_pos.mpr (ne_of_lt ha))
      have h2 : 0 ≤ b * |b| := mul_nonneg hb (abs_nonneg b)
      exact lt_of_lt_of_le h1 h2
    · rw [abs_of_neg ha, abs_of_neg hb]
      nlinarith

/-- Dividing by the square root of a positive real and then applying
t ↦ t * |t| is the same as dividing the signed square by that real. -/
theorem mul_abs_div_sqrt (d : ℝ) {n : ℝ} (hn : 0 < n) :
    d / Real.sqrt n * |d / Real.sqrt n| = d * |d| / n := by
  rw [abs_div, abs_of_nonneg (Real.sqrt_nonneg n), div_mul_div_comm,
    Real.mul_self_sqrt hn.le]

/-- C6: query returns up to k nearest neighbours: exactly min k (collection
size) results, so fewer than k when the collection is smaller, and none on
an empty collection; every result is drawn from the scored collection; the
results are sorted highest score first and each scores at least as high as
every candidate left out of the top k; and on nonzero embeddings the
rational score order agrees with cosine similarity — the dot product of the
query and the stored embedding divided by the product of their norms — so
the ranking is by cosine similarity, highest first. -/
theorem query_topk_by_cosine (store : List StoredDoc) (q : List ℚ) (k : Nat) :
    (query store q k).length = min k store.length
  ∧ query ([] : List StoredDoc) q k = []
  ∧ (query store q k).Pairwise (fun a b => b.score ≤ a.score)
  ∧ (∀ r ∈ query store q k, r ∈ scoredOf q store)
  ∧ (∀ a ∈ query store q k,
      ∀ b ∈ (List.insertionSort rankLE (scoredOf q store)).drop k, b.score ≤ a.score)
  ∧ (∀ v w : List ℚ, 0 < normSq q → 0 < normSq v → 0 < normSq w →
      (simScore q v ≤ simScore q w ↔
        (dotQ q v : ℝ) / Real.sqrt ((normSq q : ℝ) * (normSq v : ℝ)) ≤
          (dotQ q w : ℝ) / Real.sqrt ((normSq q : ℝ) * (normSq w : ℝ)))) := by
  have hsorted : (List.insertionSort rankLE (scoredOf q store)).Pairwise rankLE :=
    List.sorted_insertionSort rankLE (scoredOf q store)
  refine ⟨?_, ?_, ?_, ?_, ?_, ?_⟩
  · rw [query, List.length_take,
      (List.perm_insertionSort rankLE (scoredOf q store)).length_eq]
    simp [scoredOf]
  · simp [query, scoredOf]
  · exact (hsorted.sublist (List.take_sublist k _)).imp
      (fun hab => by
        rcases hab with hlt | ⟨heq, _⟩
        · exact le_of_lt hlt
        · exact le_of_eq heq.symm)
  · intro r hr
    have h1 : r ∈ List.insertionSort rankLE (scoredOf q store) :=
      List.Sublist.mem hr (List.take_sublist k _)
    exact (List.perm_insertionSort rankLE (scoredOf q store)).mem_iff.mp h1
  · intro a ha b hb
    have hsplit : List.Pairwise rankLE
        ((List.insertionSort rankLE (scoredOf q store)).take k ++
          (List.insertionSort rankLE (scoredOf q store)).drop k) := by
      rw [List.take_append_drop]
      exact hsorted
    have h := (List.pairwise_append.mp hsplit).2.2 a ha b hb
    rcases h with hlt | ⟨heq, _⟩
    · exact le_of_lt hlt
    · exact le_of_eq heq.symm
  · intro v w hq hv hw
    have hqv : (0 : ℝ) < (normSq q : ℝ) * (normSq v : ℝ) := by
      exact_mod_cast mul_pos hq hv
    have hqw : (0 : ℝ) < (normSq q : ℝ) * (normSq w : ℝ) := by
      exact_mod_cast mul_pos hq hw
    have e1 : ((simScore q v : ℚ) : ℝ) =
        (dotQ q v : ℝ) / Real.sqrt ((normSq q : ℝ) * (normSq v : ℝ)) *
          |(dotQ q v : ℝ) / Real.sqrt ((normSq q : ℝ) * (normSq v : ℝ))| := by
      rw [mul_abs_div_sqrt _ hqv]
      unfold simScore
      push_cast
      rfl
    have e2 : ((simScore q w : ℚ) : ℝ) =
        (dotQ q w : ℝ) / Real.sqrt ((normSq q : ℝ) * (normSq w : ℝ)) *
          |(dotQ q w : ℝ) / Real.sqrt ((normSq q : ℝ) * (normSq w : ℝ))| := by
      rw [mul_abs_div_sqrt _ hqw]
      unfold simScore
      push_cast
      rfl
    rw [← Rat.cast_le (K := ℝ), e1, e2]
    exact strictMono_mul_abs.le_iff_le

/-- C6 witness: a two-document collection queried with a unit vector; both
count and score-order agreement with real cosine similarity are obtained at
concrete embeddings. -/
theorem query_topk_by_cosine_witness :
    (0 : ℚ) < normSq [1, 0]
  ∧ (0 : ℚ) < normSq [0, 1]
  ∧ (query [⟨"a", [1, 0], "ta"⟩, ⟨"b", [0, 1], "tb"⟩] [1, 0] 2).length = min 2 2
  ∧ query ([] : List StoredDoc) [1, 0] 2 = []
  ∧ (simScore [1, 0] [0, 1] ≤ simScore [1, 0] [1, 0] ↔
      (dotQ [1, 0] [0, 1] : ℝ) /
          Real.sqrt ((normSq [1, 0] : ℝ) * (normSq [0, 1] : ℝ)) ≤
        (dotQ [1, 0] [1, 0] : ℝ) /
          Real.sqrt ((normSq [1, 0] : ℝ) * (normSq [1, 0] : ℝ))) := by
  have hq : (0 : ℚ) < normSq [1, 0] := by norm_num [normSq, dotQ]
  have hv : (0 : ℚ) < normSq [0, 1] := by norm_num [normSq, dotQ]
  have h := query_topk_by_cosine [⟨"a", [1, 0], "ta"⟩, ⟨"b", [0, 1], "tb"⟩] [1, 0] 2
  exact ⟨hq, hv, by simpa using h.1, h.2.1, h.2.2.2.2.2 [0, 1] [1, 0] hq hv hq⟩

/-- Every sextet value decodes back to itself through the alphabet. -/
theorem b64Val_b64Char : ∀ n, n < 64 → b64Val (b64Char n) = n := by decide

/-- Alphabet characters never collide with the padding character. -/
theorem b64Char_ne_pad : ∀ n, n < 64 → b64Char n ≠ '=' := by decide

/-- Character codes below 256 survive the character round trip. -/
theorem char_toNat_ofNat (n : Nat) (h : n < 256) : (Char.ofNat n).toNat = n := by
  have hv : n.isValidChar := Or.inl (by omega)
  rw [Char.ofNat, dif_pos hv]
  simp [Char.ofNatAux, Char.toNat, UInt32.toNat]

/-- Evaluation of the decoder on a block whose third character is the
padding character. -/
theorem atob_one_pad (c0 c1 : Char) (rest : List Char) :
    atob (c0 :: c1 :: '=' :: '=' :: rest) =
      [Char.ofNat (b64Val c0 * 4 + b64Val c1 / 16)] := by
  simp [atob]

/-- Evaluation of the decoder on a block whose fourth character alone is
the padding character. -/
theorem atob_two_pad (c0 c1 c2 : Char) (rest : List Char) (h2 : c2 ≠ '=') :
    atob (c0 :: c1 :: c2 :: '=' :: rest) =
      [Char.ofNat (b64Val c0 * 4 + b64Val c1 / 16),
       Char.ofNat (b64Val c1 % 16 * 16 + b64Val c2 / 4)] := by
  simp [atob, h2]

/-- Evaluation of the decoder on an unpadded block. -/
theorem atob_block (c0 c1 c2 c3 : Char) (rest : List Char) (h2 : c2 ≠ '=')
    (h3 : c3 ≠ '=') :
    atob (c0 :: c1 :: c2 :: c3 :: rest) =
      Char.ofNat (b64Val c0 * 4 + b64Val c1 / 16) ::
        Char.ofNat (b64Val c1 % 16 * 16 + b64Val c2 / 4) ::
        Char.ofNat (b64Val c2 % 4 * 64 + b64Val c3) :: atob rest := by
  simp [atob, h2, h3]

/-- Decoding inverts encoding, character by character: the decoded string
of an encoded byte sequence is that sequence read as characters. -/
theorem atob_bytesToBase64 : ∀ (N : Nat) (bytes : List Nat), bytes.length ≤ N →
    (∀ b ∈ bytes, b < 256) → atob (bytesToBase64 bytes) = bytes.map Char.ofNat := by
  intro N
  induction N with
  | zero =>
    intro bytes hlen _
    cases bytes with
    | nil => rfl
    | cons a l => simp at hlen
  | succ N ih =>
    intro bytes hlen hb
    match bytes with
    | [] => rfl
    | [a] =>
      have ha : a < 256 := hb a (by simp)
      rw [show bytesToBase64 [a] =
        [b64Char (a / 4), b64Char (a % 4 * 16), '=', '='] from rfl]
      rw [show ([b64Char (a / 4), b64Char (a % 4 * 16), '=', '='] : List Char) =
        b64Char (a / 4) :: b64Char (a % 4 * 16) :: '=' :: '=' :: [] from rfl]
      rw [atob_one_pad]
      rw [b64Val_b64Char (a / 4) (by omega), b64Val_b64Char (a % 4 * 16) (by omega)]
      rw [show a / 4 * 4 + a % 4 * 16 / 16 = a from by omega]
      rfl
    | [a, b] =>
      have ha : a < 256 := hb a (by simp)
      have hbb : b < 256 := hb b (by simp)
      rw [show bytesToBase64 [a, b] =
        b64Char (a / 4) :: b64Char (a % 4 * 16 + b / 16) ::
          b64Char (b % 16 * 4) :: '=' :: [] from rfl]
      rw [atob_two_pad _ _ _ _ (b64Char_ne_pad (b % 16 * 4) (by omega))]
      rw [b64Val_b64Char (a / 4) (by omega),
        b64Val_b64Char (a % 4 * 16 + b / 16) (by omega),
        b64Val_b64Char (b % 16 * 4) (by omega)]
      rw [show a / 4 * 4 + (a % 4 * 16 + b / 16) / 16 = a from by omega]
      rw [show (a % 4 * 16 + b / 16) % 16 * 16 + b % 16 * 4 / 4 = b from by omega]
      rfl
    | a :: b :: c :: rest =>
      have ha : a < 256 := hb a (by simp)
      have hbb : b < 256 := hb b (by simp)
      have hc : c < 256 := hb c (by simp)
      rw [show bytesToBase64 (a :: b :: c :: rest) =
        b64Char (a / 4) :: b64Char (a % 4 * 16 + b / 16) ::
          b64Char (b % 16 * 4 + c / 64) :: b64Char (c % 64) ::
          bytesToBase64 rest from rfl]
      rw [atob_block _ _ _ _ _ (b64Char_ne_pad (b % 16 * 4 + c / 64) (by omega))
        (b64Char_ne_pad (c % 64) (by omega))]
      rw [b64Val_b64Char (a / 4) (by omega),
        b64Val_b64Char (a % 4 * 16 + b / 16) (by omega),
        b64Val_b64Char (b % 16 * 4 + c / 64) (by omega),
        b64Val_b64Char (c % 64) (by omega)]
      rw [ih rest (by simp at hlen; omega) (fun x hx => hb x (by simp [hx]))]
      rw [show a / 4 * 4 + (a % 4 * 16 + b / 16) / 16 = a from by omega]
      rw [show (a % 4 * 16 + b / 16) % 16 * 16 + (b % 16 * 4 + c / 64) / 4 = b
        from by omega]
      rw [show (b % 16 * 4 + c / 64) % 4 * 64 + c % 64 = c from by omega]
      rfl

/-- C10: base64ToBlob decodes exactly: the produced byte array has one
entry per decoded character, entry i being the character code of position i
of the decoded string, and composing a bytes-to-base64 encoding with
base64ToBlob recovers the original byte sequence. -/
theorem base64ToBlob_roundtrip (bytes : List Nat) (h : ∀ b ∈ bytes, b < 256) :
    base64ToBlob (bytesToBase64 bytes) = bytes
  ∧ (∀ s : List Char, (base64ToBlob s).length = (atob s).length)
  ∧ (∀ (s : List Char) (i : Nat),
      (base64ToBlob s)[i]? = ((atob s)[i]?).map Char.toNat) := by
  refine ⟨?_, fun s => by simp [base64ToBlob], fun s i => by simp [base64ToBlob]⟩
  rw [base64ToBlob, atob_bytesToBase64 bytes.length bytes le_rfl h, List.map_map]
  have hmap : ∀ b ∈ bytes, (Char.toNat ∘ Char.ofNat) b = b := fun b hb =>
    char_toNat_ofNat b (h b hb)
  calc List.map (Char.toNat ∘ Char.ofNat) bytes
      = List.map id bytes := List.map_congr_left hmap
    _ = bytes := List.map_id bytes

/-- C10 witness: a four-byte sequence (covering both a full three-byte
block and a padded block) round trips. -/
theorem base64ToBlob_roundtrip_witness :
    (∀ b ∈ [72, 105, 33, 10], b < 256)
  ∧ base64ToBlob (bytesToBase64 [72, 105, 33, 10]) = [72, 105, 33, 10] :=
  ⟨by decide, (base64ToBlob_roundtrip [72, 105, 33, 10] (by decide)).1⟩

end VoiceClone
